import Mathlib

/-
Verification of the consolidation engine of the `conso` repository
(src/conso.py): table loading, provenance tagging, sheet selection and
search filtering, consolidation over files and sheets, and export.

The embedding mirrors the pandas operations the source uses:
  - a `Table` is a pandas DataFrame restricted to what the code exercises:
    an ordered list of column names and rows of optional (nullable) cells;
  - `concatIgnoreIndex` models `pd.concat([a, b], ignore_index=True)` with
    the default `sort=False`: the column set is widened to the union, the
    first operand's columns keep their positions, columns new in the second
    operand are appended at the end, and missing cells become null;
  - `setCol` models `df[c] = scalar`: an existing column `c` is overwritten
    in place (keeping its position), otherwise `c` is appended at the end;
  - reading a file with `pd.read_csv` / `pd.read_excel` is an external
    fallible call, embedded as the `Except` value stored on the file handle
    (parse result of the file's bytes), with the raised exception's class
    (ValueError or not) recorded so the two `except` branches of the source
    can be distinguished.
-/

namespace Conso

/-- Cell of a DataFrame: a scalar value or the null marker (NaN). -/
abbrev Cell := Option String

/-- Shallow embedding of the pandas DataFrame as used by conso.py: ordered
column names and positionally aligned rows of nullable cells. -/
structure Table where
  cols : List String
  rows : List (List Cell)
deriving DecidableEq, Repr

/-- Result of `pd.DataFrame()` (line 67/88 of conso.py): no columns, no rows. -/
def Table.empty : Table := ⟨[], []⟩

/-- Well-formedness: every row has exactly one cell per column. -/
def Table.WF (t : Table) : Prop := ∀ r ∈ t.rows, r.length = t.cols.length

/-- Cell of a row at a named column: the cell at the column's (first)
position, null when the column is absent or the row is too short. -/
def lookupCell : List String → List Cell → String → Cell
  | [], _, _ => none
  | _ :: _, [], _ => none
  | c :: cs, x :: xs, q => if q = c then x else lookupCell cs xs q

/-- Overwrite a row's cell at a named column (first occurrence), the
row-level effect of `df[c] = scalar` when column `c` already exists. -/
def setCell : List String → List Cell → String → Cell → List Cell
  | [], row, _, _ => row
  | _ :: _, [], _, _ => []
  | c :: cs, x :: xs, q, v => if q = c then v :: xs else x :: setCell cs xs q v

/-- Realign a row from a source column list to a target column list,
filling columns absent from the source with null. -/
def reindexRow (src tgt : List String) (row : List Cell) : List Cell :=
  tgt.map (fun c => lookupCell src row c)

/-- Model of `pd.concat([a, b], ignore_index=True)` with default
`sort=False` (lines 74/78/97): union of columns, the first operand's
columns keep their order, new columns append at the end, rows realigned
with nulls for absent columns. -/
def concatIgnoreIndex (a b : Table) : Table :=
  { cols := a.cols ++ b.cols.filter (fun c => decide (c ∉ a.cols))
    rows :=
      a.rows.map (reindexRow a.cols (a.cols ++ b.cols.filter (fun c => decide (c ∉ a.cols))))
        ++ b.rows.map (reindexRow b.cols (a.cols ++ b.cols.filter (fun c => decide (c ∉ a.cols)))) }

/-- Model of `df[c] = v` with a scalar `v` (lines 73/77/95/96): overwrite
an existing column in place, else append a new column at the end. -/
def setCol (t : Table) (c : String) (v : Cell) : Table :=
  if c ∈ t.cols then
    { cols := t.cols, rows := t.rows.map (fun r => setCell t.cols r c v) }
  else
    { cols := t.cols ++ [c], rows := t.rows.map (fun r => r ++ [v]) }

/-- Column of a table by name, as the list of its cells in row order. -/
def Table.col (t : Table) (q : String) : List Cell :=
  t.rows.map (fun r => lookupCell t.cols r q)

/-- Exception raised by a pandas call, with its class recorded so the
`except ValueError` and `except Exception` branches of the source can be
told apart. -/
structure PdError where
  isValueError : Bool
  msg : String
deriving DecidableEq, Repr

/-- Uploaded file handle: its name plus the parse results of its byte
content under the two readers the source invokes (`pd.read_csv`, and the
workbook's sheets for `pd.read_excel` / `pd.ExcelFile`). -/
structure UploadedFile where
  name : String
  csvData : Except PdError Table
  sheets : Except PdError (List (String × Table))

/-- First-match association-list lookup on string keys, the semantics of
Python dict indexing used for `selected_sheets[...]` and sheet lookup. -/
def assocLookup {α : Type} : List (String × α) → String → Option α
  | [], _ => none
  | (k, v) :: rest, q => if q = k then some v else assocLookup rest q

/-- Replace the value stored under key `k` (Python `d[k] = v` on a present
key). -/
def updateAssoc {α : Type} (l : List (String × α)) (k : String) (v : α) :
    List (String × α) :=
  l.map (fun p => if p.1 = k then (p.1, v) else p)

/-- Model of `pd.read_excel(file, engine='openpyxl')` without a sheet name
(line 76): the workbook's first sheet, failing on a corrupt workbook. -/
def read_excel_default (f : UploadedFile) : Except PdError Table :=
  match f.sheets with
  | Except.error e => Except.error e
  | Except.ok [] => Except.error ⟨false, "workbook has no sheets"⟩
  | Except.ok ((_, t) :: _) => Except.ok t

/-- Model of `pd.read_excel(file, sheet_name=sheet)` (line 94): the named
sheet, failing on a corrupt workbook or a missing sheet (pandas raises
ValueError for the latter). -/
def read_excel_sheet (f : UploadedFile) (sheet : String) : Except PdError Table :=
  match f.sheets with
  | Except.error e => Except.error e
  | Except.ok ss =>
    match assocLookup ss sheet with
    | some t => Except.ok t
    | none => Except.error ⟨true, "Worksheet named " ++ sheet ++ " not found"⟩

/-- Model of `pd.ExcelFile(file).sheet_names` (line 180). -/
def sheetNamesOf (f : UploadedFile) : List String :=
  match f.sheets with
  | Except.ok ss => ss.map Prod.fst
  | Except.error _ => []

/-- Message recorded by the two `except` branches of `consolidate_files`
(lines 79-82). -/
def errorText (fname : String) (e : PdError) : String :=
  if e.isValueError then "Error processing " ++ fname ++ ": " ++ e.msg
  else "Unexpected error with file " ++ fname ++ ": " ++ e.msg

/-- Message recorded by the two `except` branches of `consolidate_sheets`
(lines 98-101). -/
def sheetErrorText (fname : String) (e : PdError) : String :=
  if e.isValueError then "Error processing sheet in " ++ fname ++ ": " ++ e.msg
  else "Unexpected error with file " ++ fname ++ ": " ++ e.msg

/-- Loop body of `consolidate_files` (lines 69-82): read the file per the
declared kind, tag with the Filename column, concatenate; a failing read
records one message and leaves the accumulator's table untouched; a kind
other than csv/excel matches neither branch and does nothing. -/
def fileStep (file_type : String) (acc : Table × List String)
    (f : UploadedFile) : Table × List String :=
  if file_type = "csv" then
    match f.csvData with
    | Except.ok df =>
        (concatIgnoreIndex acc.1 (setCol df "Filename" (some f.name)), acc.2)
    | Except.error e => (acc.1, acc.2 ++ [errorText f.name e])
  else if file_type = "excel" then
    match read_excel_default f with
    | Except.ok df =>
        (concatIgnoreIndex acc.1 (setCol df "Filename" (some f.name)), acc.2)
    | Except.error e => (acc.1, acc.2 ++ [errorText f.name e])
  else acc

/-- Model of `consolidate_files` (lines 66-84), returning the consolidated
table together with the list of error messages shown via `st.error`. -/
def consolidate_files (file_list : List UploadedFile) (file_type : String) :
    Table × List String :=
  file_list.foldl (fileStep file_type) (Table.empty, [])

/-- Inner sheet loop of `consolidate_sheets` (lines 93-97) together with
the surrounding `try` (lines 91-101): sheets are processed in order; the
first failing read raises out of the loop, so one message is recorded and
the remaining sheets of the same file are skipped. -/
def sheetStep (f : UploadedFile) (acc : Table × List String) :
    List String → Table × List String
  | [] => acc
  | s :: rest =>
    match read_excel_sheet f s with
    | Except.ok df =>
        sheetStep f
          (concatIgnoreIndex acc.1
            (setCol (setCol df "Filename" (some f.name)) "Sheet Name" (some s)),
           acc.2) rest
    | Except.error e => (acc.1, acc.2 ++ [sheetErrorText f.name e])

/-- Per-file body of `consolidate_sheets` (lines 90-101): files whose name
is absent from the selection are skipped. -/
def fileSheetsStep (selected : List (String × List String))
    (acc : Table × List String) (f : UploadedFile) : Table × List String :=
  match assocLookup selected f.name with
  | none => acc
  | some sheets => sheetStep f acc sheets

/-- Model of `consolidate_sheets` (lines 87-103). -/
def consolidate_sheets (file_list : List UploadedFile)
    (selected_sheets : List (String × List String)) : Table × List String :=
  file_list.foldl (fileSheetsStep selected_sheets) (Table.empty, [])

/-- Decision of whether `p` occurs as a leading segment of `l`. -/
def isPrefixChars : List Char → List Char → Bool
  | [], _ => true
  | _ :: _, [] => false
  | a :: as, b :: bs => if a = b then isPrefixChars as bs else false

/-- Python's substring test `needle in hay`: true for the empty needle,
otherwise true when the needle starts at some position of the haystack. -/
def containsSub : List Char → List Char → Bool
  | [], needle => needle.isEmpty
  | c :: t, needle => isPrefixChars needle (c :: t) || containsSub t needle

/-- Python `s.lower()` on the characters of a string. -/
def strLower (s : String) : List Char := s.data.map Char.toLower

/-- Model of the search filter (line 186):
`[sheet for sheet in sheet_names if search_term.lower() in sheet.lower()]`. -/
def filterBySearch (sheet_names : List String) (term : String) : List String :=
  sheet_names.filter (fun s => containsSub (strLower s) (strLower term))

/-- Model of the `global_matching_sheets` accumulation (lines 177-190):
every (file name, sheet name) pair whose sheet matches the search term,
in file order then sheet order. -/
def global_matches (files : List UploadedFile) (term : String) :
    List (String × String) :=
  (files.map (fun f =>
    (filterBySearch (sheetNamesOf f) term).map (fun s => (f.name, s)))).flatten

/-- One iteration of the auto-selection loop (lines 195-198): create the
file's entry when absent, then append the matched sheet name. -/
def addMatch (sel : List (String × List String)) (m : String × String) :
    List (String × List String) :=
  match assocLookup sel m.1 with
  | none => sel ++ [(m.1, [m.2])]
  | some l => updateAssoc sel m.1 (l ++ [m.2])

/-- Model of merging the manual selection with the search matches
(lines 195-198): fold the auto-selection loop over the matches starting
from the manual selection. -/
def merge_selections (manual : List (String × List String))
    (found : List (String × String)) : List (String × List String) :=
  found.foldl addMatch manual

/-- Guard of the auto-selection step (line 193,
`if search_term and global_matching_sheets:`): the merge runs only when
the term and the match list are both non-empty (Python truthiness). -/
def auto_select (term : String) (found : List (String × String))
    (selected : List (String × List String)) : List (String × List String) :=
  if term = "" ∨ found = [] then selected else merge_selections selected found

/-- Model of `mapped_sheets` (line 201): the files with a truthy (present
and non-empty) selection entry, mapped to their selected sheet lists. -/
def mapped_sheets (files : List UploadedFile)
    (selected : List (String × List String)) : List (String × List String) :=
  files.filterMap (fun f =>
    match assocLookup selected f.name with
    | some (s :: ss) => some (f.name, s :: ss)
    | _ => none)

/-- Sheet-mode selection pipeline (lines 174-201): compute the search
matches, auto-select them on top of the manual selection when the term is
non-empty, then build the file-to-sheets mapping handed to
`consolidate_sheets`. -/
def sheet_mode_selection (files : List UploadedFile)
    (manual : List (String × List String)) (term : String) :
    List (String × List String) :=
  mapped_sheets files (auto_select term (global_matches files term) manual)

/-- Cell grid written by `DataFrame.to_excel(writer, index=index)`: a
header row followed by the data rows; with `index` set, a row-number
column is prepended (blank header corner, then the positional index). -/
def to_excel_grid (t : Table) (index : Bool) : List (List Cell) :=
  match index with
  | true =>
      (none :: t.cols.map (fun c => some c))
        :: (t.rows.enum.map (fun p => some (toString p.1) :: p.2))
  | false => (t.cols.map (fun c => some c)) :: t.rows

/-- Model of the export block (lines 164-167): one `ExcelWriter` holding a
single sheet written by `to_excel(writer, index=False)`. -/
def excel_writer_output (t : Table) : List (String × List (List Cell)) :=
  [("Sheet1", to_excel_grid t false)]

/-- Outcome of the post-consolidation display branch
(lines 155-169 / 204-218). -/
inductive FileModeOutcome where
  | showAndDownload
  | warnNoData
deriving DecidableEq, Repr

/-- Model of `if not consolidated_data.empty: ... else: st.warning(...)`:
pandas `DataFrame.empty` is true when either axis has length zero; the
empty case is reported with `st.warning("No data to display after
consolidation.")`, not `st.error` and not an exception. -/
def file_mode_outcome (consolidated : Table) : FileModeOutcome :=
  if consolidated.rows.isEmpty || consolidated.cols.isEmpty then
    FileModeOutcome.warnNoData
  else FileModeOutcome.showAndDownload

/-- Row count contributed by a file in csv mode: the parsed table's row
count, zero for an unreadable file. -/
def rowsOf (f : UploadedFile) : Nat :=
  match f.csvData with
  | Except.ok t => t.rows.length
  | Except.error _ => 0

/-- Valid-CSV hypothesis used by several claims: every file of the list
parses as csv to a well-formed table over the given schema. -/
def AllValidCsv (files : List UploadedFile) (schema : List String) : Prop :=
  ∀ f ∈ files, ∃ t, f.csvData = Except.ok t ∧ t.cols = schema ∧ t.WF

/-- Fixture: a one-row CSV table over schema A. -/
def tA : Table := ⟨["A"], [[some "1"]]⟩

/-- Fixture: a two-row CSV table over schema A. -/
def tB : Table := ⟨["A"], [[some "2"], [some "3"]]⟩

/-- Fixture: the workbook read of a file that is not a workbook. -/
def noWorkbook : Except PdError (List (String × Table)) :=
  Except.error ⟨false, "not a workbook"⟩

/-- Fixture: a valid one-row CSV file. -/
def fA : UploadedFile := ⟨"a.csv", Except.ok tA, noWorkbook⟩

/-- Fixture: a valid two-row CSV file. -/
def fB : UploadedFile := ⟨"b.csv", Except.ok tB, noWorkbook⟩

/-- Fixture: a corrupt (unparseable) CSV file. -/
def badCsv : UploadedFile :=
  ⟨"bad.csv", Except.error ⟨true, "unparseable"⟩, noWorkbook⟩

/-- Per-file read failure for a given declared kind: the read the loop
body would perform on this file raises. -/
def FailsFor (file_type : String) (f : UploadedFile) : Prop :=
  (file_type = "csv" → ∃ e, f.csvData = Except.error e)
  ∧ (file_type = "excel" → ∃ e, read_excel_default f = Except.error e)

/-- Fixture: a CSV table that already carries a Filename column with data. -/
def tJunk : Table := ⟨["Filename", "V"], [[some "old", some "1"]]⟩

/-- Fixture: a sheet table that already carries Filename and Sheet Name
columns with data. -/
def uJunk : Table :=
  ⟨["Filename", "Sheet Name", "V"], [[some "old", some "oldsheet", some "1"]]⟩

/-- Fixture: a CSV file whose table already has a Filename column. -/
def fJunk : UploadedFile := ⟨"f.csv", Except.ok tJunk, noWorkbook⟩

/-- Fixture: a workbook whose sheet S already has provenance columns. -/
def gJunk : UploadedFile :=
  ⟨"g.xlsx", Except.error ⟨true, "not csv"⟩, Except.ok [("S", uJunk)]⟩

/-- Fixture: the single valid sheet of the C3 workbook. -/
def tGood : Table := ⟨["A"], [[some "1"]]⟩

/-- Fixture: a workbook whose only sheet is Good; reading any other sheet
name raises the missing-worksheet ValueError. -/
def wSkip : UploadedFile :=
  ⟨"wb.xlsx", Except.error ⟨true, "not csv"⟩, Except.ok [("Good", tGood)]⟩

/-- Fixture: a workbook with a single one-row sheet S1, used to exercise
the manual-plus-search selection merge. -/
def wDup : UploadedFile :=
  ⟨"wb2.xlsx", Except.error ⟨true, "not csv"⟩,
   Except.ok [("S1", ⟨["A"], [[some "1"]]⟩)]⟩

/-- Fixture: the f1.csv table of the spec's worked example (columns X, Y,
two rows). -/
def tF1 : Table :=
  ⟨["X", "Y"], [[some "x1", some "y1"], [some "x2", some "y2"]]⟩

/-- Fixture: the f2.csv table of the spec's worked example (columns X, Z,
one row). -/
def tF2 : Table := ⟨["X", "Z"], [[some "x3", some "z3"]]⟩

/-- Fixture: the example file f1.csv. -/
def f1csv : UploadedFile := ⟨"f1.csv", Except.ok tF1, noWorkbook⟩

/-- Fixture: the example file f2.csv. -/
def f2csv : UploadedFile := ⟨"f2.csv", Except.ok tF2, noWorkbook⟩

theorem lookupCell_map (cols : List String) (g : String → Cell) (q : String) :
    lookupCell cols (cols.map g) q = if q ∈ cols then g q else none := by
  induction cols with
  | nil => simp [lookupCell]
  | cons c cs ih =>
    by_cases h : q = c
    · subst h; simp [lookupCell]
    · simp [lookupCell, h, ih]

theorem lookupCell_not_mem (cols : List String) (row : List Cell) (q : String)
    (h : q ∉ cols) : lookupCell cols row q = none := by
  induction cols generalizing row with
  | nil => simp [lookupCell]
  | cons c cs ih =>
    cases row with
    | nil => simp [lookupCell]
    | cons x xs =>
      have h1 : q ≠ c := fun e => h (e ▸ List.mem_cons_self c cs)
      have h2 : q ∉ cs := fun hq => h (List.mem_cons_of_mem _ hq)
      simp [lookupCell, h1, ih xs h2]

theorem lookupCell_reindexRow (src tgt : List String) (row : List Cell)
    (q : String) (h : q ∈ tgt ∨ q ∉ src) :
    lookupCell tgt (reindexRow src tgt row) q = lookupCell src row q := by
  rw [reindexRow, lookupCell_map]
  rcases h with h | h
  · simp [h]
  · by_cases hq : q ∈ tgt
    · simp [hq]
    · simp [hq, lookupCell_not_mem _ _ _ h]

theorem col_concat (a b : Table) (q : String) :
    (concatIgnoreIndex a b).col q = a.col q ++ b.col q := by
  have hsub : ∀ c ∈ b.cols,
      c ∈ a.cols ++ b.cols.filter (fun c => decide (c ∉ a.cols)) := by
    intro c hc
    by_cases hca : c ∈ a.cols
    · exact List.mem_append_left _ hca
    · exact List.mem_append_right _ (List.mem_filter.mpr ⟨hc, by simpa using hca⟩)
  unfold concatIgnoreIndex Table.col
  simp only [List.map_append, List.map_map, Function.comp]
  congr 1
  · refine List.map_congr_left (fun r _ => ?_)
    apply lookupCell_reindexRow
    by_cases hqa : q ∈ a.cols
    · exact Or.inl (List.mem_append_left _ hqa)
    · exact Or.inr hqa
  · refine List.map_congr_left (fun r _ => ?_)
    apply lookupCell_reindexRow
    by_cases hqb : q ∈ b.cols
    · exact Or.inl (hsub q hqb)
    · exact Or.inr hqb

theorem concat_rows_length (a b : Table) :
    (concatIgnoreIndex a b).rows.length = a.rows.length + b.rows.length := by
  simp [concatIgnoreIndex]

theorem setCell_length (cols : List String) (row : List Cell) (c : String)
    (v : Cell) : (setCell cols row c v).length = row.length := by
  induction cols generalizing row with
  | nil => simp [setCell]
  | cons c0 cs ih =>
    cases row with
    | nil => simp [setCell]
    | cons x xs => by_cases h : c = c0 <;> simp [setCell, h, ih]

theorem lookupCell_setCell_self (cols : List String) (row : List Cell)
    (c : String) (v : Cell) (hmem : c ∈ cols) (hlen : row.length = cols.length) :
    lookupCell cols (setCell cols row c v) c = v := by
  induction cols generalizing row with
  | nil => cases hmem
  | cons c0 cs ih =>
    cases row with
    | nil => simp at hlen
    | cons x xs =>
      by_cases h : c = c0
      · simp [setCell, h, lookupCell]
      · have hm : c ∈ cs := by
          rcases List.mem_cons.mp hmem with h' | h'
          · exact absurd h' h
          · exact h'
        simp only [setCell, if_neg h, lookupCell, if_neg h]
        exact ih xs hm (by simpa using hlen)

theorem lookupCell_setCell_ne (cols : List String) (row : List Cell)
    (q c : String) (v : Cell) (hne : q ≠ c) :
    lookupCell cols (setCell cols row c v) q = lookupCell cols row q := by
  induction cols generalizing row with
  | nil => simp [setCell]
  | cons c0 cs ih =>
    cases row with
    | nil => simp [setCell]
    | cons x xs =>
      by_cases h : c = c0
      · subst h
        simp [setCell, lookupCell, hne]
      · by_cases hq : q = c0
        · subst hq; simp [setCell, h, lookupCell]
        · simp [setCell, h, lookupCell, hq, ih]

theorem lookupCell_append_self (cols : List String) (row : List Cell)
    (c : String) (v : Cell) (hc : c ∉ cols) (hlen : row.length = cols.length) :
    lookupCell (cols ++ [c]) (row ++ [v]) c = v := by
  induction cols generalizing row with
  | nil =>
    cases row with
    | nil => simp [lookupCell]
    | cons x xs => simp at hlen
  | cons c0 cs ih =>
    cases row with
    | nil => simp at hlen
    | cons x xs =>
      have h : c ≠ c0 := fun e => hc (e ▸ List.mem_cons_self c0 cs)
      have h2 : c ∉ cs := fun hq => hc (List.mem_cons_of_mem _ hq)
      simp only [List.cons_append, lookupCell, if_neg h]
      exact ih xs h2 (by simpa using hlen)

theorem lookupCell_append_ne (cols : List String) (row : List Cell)
    (q c : String) (v : Cell) (hne : q ≠ c) (hlen : row.length = cols.length) :
    lookupCell (cols ++ [c]) (row ++ [v]) q = lookupCell cols row q := by
  induction cols generalizing row with
  | nil =>
    cases row with
    | nil => simp [lookupCell, hne]
    | cons x xs => simp at hlen
  | cons c0 cs ih =>
    cases row with
    | nil => simp at hlen
    | cons x xs =>
      by_cases h : q = c0
      · simp [List.cons_append, lookupCell, h]
      · simp only [List.cons_append, lookupCell, if_neg h]
        exact ih xs (by simpa using hlen)

theorem mapConstReplicate {α β : Type} (l : List α) (b : β) :
    l.map (fun _ => b) = List.replicate l.length b := by
  induction l with
  | nil => rfl
  | cons x xs ih => simp [List.replicate, ih]

theorem col_setCol_self (t : Table) (c : String) (v : Cell) (hwf : t.WF) :
    (setCol t c v).col c = List.replicate t.rows.length v := by
  unfold setCol
  by_cases h : c ∈ t.cols
  · simp only [if_pos h, Table.col, List.map_map, Function.comp_def]
    rw [List.map_congr_left
      (fun r hr => lookupCell_setCell_self t.cols r c v h (hwf r hr))]
    exact mapConstReplicate _ _
  · simp only [if_neg h, Table.col, List.map_map, Function.comp_def]
    rw [List.map_congr_left
      (fun r hr => lookupCell_append_self t.cols r c v h (hwf r hr))]
    exact mapConstReplicate _ _

theorem col_setCol_ne (t : Table) (q c : String) (v : Cell) (hne : q ≠ c)
    (hwf : t.WF) : (setCol t c v).col q = t.col q := by
  unfold setCol
  by_cases h : c ∈ t.cols
  · simp only [if_pos h, Table.col, List.map_map, Function.comp_def]
    exact List.map_congr_left
      (fun r _ => lookupCell_setCell_ne t.cols r q c v hne)
  · simp only [if_neg h, Table.col, List.map_map, Function.comp_def]
    exact List.map_congr_left
      (fun r hr => lookupCell_append_ne t.cols r q c v hne (hwf r hr))

theorem setCol_cols_of_mem (t : Table) (c : String) (v : Cell)
    (h : c ∈ t.cols) : (setCol t c v).cols = t.cols := by
  simp [setCol, h]

theorem setCol_rows_length (t : Table) (c : String) (v : Cell) :
    (setCol t c v).rows.length = t.rows.length := by
  unfold setCol
  split <;> simp

theorem WF_setCol (t : Table) (c : String) (v : Cell) (hwf : t.WF) :
    (setCol t c v).WF := by
  unfold setCol
  by_cases h : c ∈ t.cols
  · rw [if_pos h]
    intro r hr
    obtain ⟨r0, hr0, rfl⟩ := List.mem_map.mp hr
    simpa [setCell_length] using hwf r0 hr0
  · rw [if_neg h]
    intro r hr
    obtain ⟨r0, hr0, rfl⟩ := List.mem_map.mp hr
    simp [hwf r0 hr0]

theorem setCol_nodup (t : Table) (c : String) (v : Cell)
    (hnd : t.cols.Nodup) : (setCol t c v).cols.Nodup := by
  unfold setCol
  by_cases h : c ∈ t.cols
  · simpa [h] using hnd
  · rw [if_neg h]
    refine List.Nodup.append hnd (List.nodup_singleton c) ?_
    intro a ha hac
    rw [List.mem_singleton.mp hac] at ha
    exact h ha

theorem reindexRow_self (cols : List String) (row : List Cell)
    (hnd : cols.Nodup) (hlen : row.length = cols.length) :
    reindexRow cols cols row = row := by
  unfold reindexRow
  induction cols generalizing row with
  | nil =>
    cases row with
    | nil => rfl
    | cons x xs => simp at hlen
  | cons c cs ih =>
    cases row with
    | nil => simp at hlen
    | cons x xs =>
      simp only [List.map_cons]
      have hhead : lookupCell (c :: cs) (x :: xs) c = x := by simp [lookupCell]
      have htail : cs.map (fun c' => lookupCell (c :: cs) (x :: xs) c')
          = cs.map (fun c' => lookupCell cs xs c') := by
        refine List.map_congr_left (fun c' hc' => ?_)
        have hcc : c' ≠ c := fun e => (List.nodup_cons.mp hnd).1 (e ▸ hc')
        simp [lookupCell, hcc]
      rw [hhead, htail,
        ih xs (List.nodup_cons.mp hnd).2 (by simpa using hlen)]

theorem filter_not_mem_nil (l : List String) :
    l.filter (fun c => decide (c ∉ ([] : List String))) = l := by
  induction l with
  | nil => rfl
  | cons x xs ih => simp [List.filter, ih]

theorem concat_empty_left (t : Table) (hwf : t.WF) (hnd : t.cols.Nodup) :
    concatIgnoreIndex Table.empty t = t := by
  obtain ⟨cols, rows⟩ := t
  unfold Table.WF at hwf
  simp only at hwf
  simp only [concatIgnoreIndex, Table.empty, List.map_nil, List.nil_append,
    Table.mk.injEq, filter_not_mem_nil]
  refine ⟨trivial, ?_⟩
  rw [List.map_congr_left (g := id)
    (fun r hr => reindexRow_self cols r hnd (hwf r hr))]
  exact List.map_id rows

theorem col_empty (q : String) : Table.empty.col q = [] := rfl

theorem concat_empty_cols (x : Table) :
    (concatIgnoreIndex Table.empty x).cols = x.cols := by
  simp [concatIgnoreIndex, Table.empty, filter_not_mem_nil]

theorem csv_fold (files : List UploadedFile) (init : Table × List String)
    (h : ∀ f ∈ files, ∃ t, f.csvData = Except.ok t ∧ t.WF) :
    (List.foldl (fileStep "csv") init files).1.rows.length
        = init.1.rows.length + (files.map rowsOf).sum
    ∧ (List.foldl (fileStep "csv") init files).1.col "Filename"
        = init.1.col "Filename"
          ++ (files.map (fun f => List.replicate (rowsOf f) (some f.name))).flatten
    ∧ (List.foldl (fileStep "csv") init files).2 = init.2 := by
  induction files generalizing init with
  | nil => simp
  | cons f fs ih =>
    obtain ⟨t, hok, hwf⟩ := h f (List.mem_cons_self f fs)
    have hstep : fileStep "csv" init f
        = (concatIgnoreIndex init.1 (setCol t "Filename" (some f.name)), init.2) := by
      simp [fileStep, hok]
    have hr : rowsOf f = t.rows.length := by simp [rowsOf, hok]
    have ihh := ih (fileStep "csv" init f)
      (fun g hg => h g (List.mem_cons_of_mem f hg))
    rw [List.foldl_cons] at *
    refine ⟨?_, ?_, ?_⟩
    · rw [ihh.1, hstep]
      simp only [concat_rows_length, setCol_rows_length, hr, List.map_cons,
        List.sum_cons]
      omega
    · rw [ihh.2.1, hstep]
      simp only [col_concat, col_setCol_self _ _ _ hwf, hr, List.map_cons,
        List.flatten_cons, List.append_assoc]
    · rw [ihh.2.2, hstep]

/-- C1: for every non-empty list of valid same-schema CSV files,
`consolidate_files` in csv mode returns a table whose row count is the sum
of the input row counts, and the Filename column lists, in row order, the
name of the file each row came from (each file contributing a block of its
own row count). -/
theorem consolidate_files_csv_rowcount_filename
    (files : List UploadedFile) (schema : List String)
    (_hne : files ≠ []) (hvalid : AllValidCsv files schema) :
    (consolidate_files files "csv").1.rows.length = (files.map rowsOf).sum
    ∧ (consolidate_files files "csv").1.col "Filename"
        = (files.map (fun f => List.replicate (rowsOf f) (some f.name))).flatten := by
  have h : ∀ f ∈ files, ∃ t, f.csvData = Except.ok t ∧ t.WF := by
    intro f hf
    obtain ⟨t, h1, _, h3⟩ := hvalid f hf
    exact ⟨t, h1, h3⟩
  have hfold := csv_fold files (Table.empty, []) h
  unfold consolidate_files
  constructor
  · rw [hfold.1]; simp [Table.empty]
  · rw [hfold.2.1]; rfl

theorem consolidate_files_csv_rowcount_filename_witness :
    ([fA, fB] ≠ ([] : List UploadedFile)) ∧ AllValidCsv [fA, fB] ["A"]
    ∧ ((consolidate_files [fA, fB] "csv").1.rows.length
          = ([fA, fB].map rowsOf).sum
      ∧ (consolidate_files [fA, fB] "csv").1.col "Filename"
          = ([fA, fB].map
              (fun f => List.replicate (rowsOf f) (some f.name))).flatten) := by
  have hne : [fA, fB] ≠ ([] : List UploadedFile) := by simp
  have hv : AllValidCsv [fA, fB] ["A"] := by
    intro f hf
    rcases List.mem_cons.mp hf with rfl | hf2
    · exact ⟨tA, rfl, rfl, by unfold Table.WF; decide⟩
    · rw [List.mem_singleton.mp hf2]
      exact ⟨tB, rfl, rfl, by unfold Table.WF; decide⟩
  exact ⟨hne, hv, consolidate_files_csv_rowcount_filename [fA, fB] ["A"] hne hv⟩

/-- C2: consolidating a valid file together with a corrupt one (in either
order) yields the valid file's rows, tagged with its filename, plus
exactly one recorded message naming the corrupt file; nothing raises and
the corrupt file's failure discards no rows. -/
theorem consolidate_files_corrupt_isolated (v c : UploadedFile) (t : Table)
    (e : PdError) (l : List UploadedFile)
    (hv : v.csvData = Except.ok t) (hwf : t.WF) (hnd : t.cols.Nodup)
    (hc : c.csvData = Except.error e)
    (hl : l = [v, c] ∨ l = [c, v]) :
    consolidate_files l "csv"
      = (setCol t "Filename" (some v.name), [errorText c.name e]) := by
  have htag : concatIgnoreIndex Table.empty (setCol t "Filename" (some v.name))
      = setCol t "Filename" (some v.name) :=
    concat_empty_left _ (WF_setCol t _ _ hwf) (setCol_nodup t _ _ hnd)
  rcases hl with rfl | rfl
  · unfold consolidate_files
    simp [List.foldl_cons, fileStep, hv, hc, htag]
  · unfold consolidate_files
    simp [List.foldl_cons, fileStep, hv, hc, htag]

theorem consolidate_files_corrupt_isolated_witness :
    consolidate_files [fA, badCsv] "csv"
      = (setCol tA "Filename" (some "a.csv"),
         [errorText "bad.csv" ⟨true, "unparseable"⟩]) :=
  consolidate_files_corrupt_isolated fA badCsv tA ⟨true, "unparseable"⟩
    [fA, badCsv] rfl (by unfold Table.WF; decide) (by decide) rfl (Or.inl rfl)

theorem fileStep_fails (file_type : String) (f : UploadedFile)
    (h : FailsFor file_type f) (acc : Table × List String) :
    (fileStep file_type acc f).1 = acc.1 := by
  by_cases hc : file_type = "csv"
  · obtain ⟨e, he⟩ := h.1 hc
    simp [fileStep, hc, he]
  · by_cases hx : file_type = "excel"
    · obtain ⟨e, he⟩ := h.2 hx
      simp [fileStep, hc, hx, he]
    · simp [fileStep, hc, hx]

theorem fold_table_fixed (file_type : String) :
    ∀ (files : List UploadedFile) (init : Table × List String),
    (∀ f ∈ files, FailsFor file_type f) →
    (List.foldl (fileStep file_type) init files).1 = init.1 := by
  intro files
  induction files with
  | nil => intro init _; rfl
  | cons f fs ih =>
    intro init h
    rw [List.foldl_cons,
      ih (fileStep file_type init f) (fun g hg => h g (List.mem_cons_of_mem f hg)),
      fileStep_fails file_type f (h f (List.mem_cons_self f fs)) init]

/-- C7: when no file of the list yields a table (every read fails for the
declared kind, or the kind matches no branch), the consolidated table is
the empty table with zero rows, and the display step reports the neutral
warning "No data to display after consolidation." rather than an error or
an exception. -/
theorem consolidate_empty_result_warning (files : List UploadedFile)
    (file_type : String) (h : ∀ f ∈ files, FailsFor file_type f) :
    (consolidate_files files file_type).1 = Table.empty
    ∧ (consolidate_files files file_type).1.rows.length = 0
    ∧ file_mode_outcome (consolidate_files files file_type).1
        = FileModeOutcome.warnNoData := by
  have h1 : (consolidate_files files file_type).1 = Table.empty :=
    fold_table_fixed file_type files (Table.empty, []) h
  refine ⟨h1, ?_, ?_⟩
  · rw [h1]; rfl
  · rw [h1]; rfl

theorem consolidate_empty_result_warning_witness :
    (consolidate_files [badCsv] "csv").1 = Table.empty
    ∧ (consolidate_files [badCsv] "csv").1.rows.length = 0
    ∧ file_mode_outcome (consolidate_files [badCsv] "csv").1
        = FileModeOutcome.warnNoData := by
  refine consolidate_empty_result_warning [badCsv] "csv" ?_
  intro f hf
  rw [List.mem_singleton.mp hf]
  exact ⟨fun _ => ⟨⟨true, "unparseable"⟩, rfl⟩,
         fun _ => ⟨⟨false, "not a workbook"⟩, rfl⟩⟩

/-- C9: a file kind other than csv or excel matches neither branch of the
loop body, so the whole run reads nothing, produces the empty table, and
records no message at all. -/
theorem consolidate_files_unknown_type (files : List UploadedFile)
    (file_type : String) (h1 : file_type ≠ "csv") (h2 : file_type ≠ "excel") :
    consolidate_files files file_type = (Table.empty, []) := by
  unfold consolidate_files
  induction files with
  | nil => rfl
  | cons f fs ih =>
    rw [List.foldl_cons]
    have hstep : fileStep file_type (Table.empty, []) f = (Table.empty, []) := by
      simp [fileStep, h1, h2]
    rw [hstep]
    exact ih

theorem consolidate_files_unknown_type_witness :
    consolidate_files [fA] "json" = (Table.empty, []) :=
  consolidate_files_unknown_type [fA] "json" (by decide) (by decide)

/-- C10: when a source table already has a Filename column (and, in sheet
mode, a Sheet Name column), tagging overwrites every cell of the existing
column with the provenance value in place: the output column list is
unchanged (no provenance column is appended) and the original data of
those columns is replaced. -/
theorem provenance_overwrites_existing_column
    (f g : UploadedFile) (t u : Table) (s : String)
    (hft : f.csvData = Except.ok t) (hwt : t.WF) (hmt : "Filename" ∈ t.cols)
    (hgs : g.sheets = Except.ok [(s, u)]) (hwu : u.WF)
    (hmu1 : "Filename" ∈ u.cols) (hmu2 : "Sheet Name" ∈ u.cols) :
    (consolidate_files [f] "csv").1.cols = t.cols
    ∧ (consolidate_files [f] "csv").1.col "Filename"
        = List.replicate t.rows.length (some f.name)
    ∧ (consolidate_sheets [g] [(g.name, [s])]).1.cols = u.cols
    ∧ (consolidate_sheets [g] [(g.name, [s])]).1.col "Filename"
        = List.replicate u.rows.length (some g.name)
    ∧ (consolidate_sheets [g] [(g.name, [s])]).1.col "Sheet Name"
        = List.replicate u.rows.length (some s) := by
  have hfile : consolidate_files [f] "csv"
      = (concatIgnoreIndex Table.empty (setCol t "Filename" (some f.name)), []) := by
    simp [consolidate_files, fileStep, hft]
  have hread : read_excel_sheet g s = Except.ok u := by
    simp [read_excel_sheet, hgs, assocLookup]
  have hsheet : consolidate_sheets [g] [(g.name, [s])]
      = (concatIgnoreIndex Table.empty
          (setCol (setCol u "Filename" (some g.name)) "Sheet Name" (some s)),
         []) := by
    simp [consolidate_sheets, fileSheetsStep, assocLookup, sheetStep, hread]
  have hinner_cols : (setCol u "Filename" (some g.name)).cols = u.cols :=
    setCol_cols_of_mem u _ _ hmu1
  have hinner_wf : (setCol u "Filename" (some g.name)).WF := WF_setCol u _ _ hwu
  have hmu2' : "Sheet Name" ∈ (setCol u "Filename" (some g.name)).cols := by
    rw [hinner_cols]; exact hmu2
  refine ⟨?_, ?_, ?_, ?_, ?_⟩
  · rw [hfile]
    rw [concat_empty_cols, setCol_cols_of_mem t _ _ hmt]
  · rw [hfile]
    rw [col_concat, col_empty, col_setCol_self t _ _ hwt]
    rfl
  · rw [hsheet]
    rw [concat_empty_cols, setCol_cols_of_mem _ _ _ hmu2', hinner_cols]
  · rw [hsheet]
    rw [col_concat, col_empty,
      col_setCol_ne _ "Filename" "Sheet Name" _ (by decide) hinner_wf,
      col_setCol_self u _ _ hwu]
    rfl
  · rw [hsheet]
    rw [col_concat, col_empty, col_setCol_self _ _ _ hinner_wf,
      setCol_rows_length]
    rfl

theorem sheetStep_append_ok (f : UploadedFile) :
    ∀ (done rest : List String) (acc : Table × List String),
    (∀ s ∈ done, ∃ d, read_excel_sheet f s = Except.ok d) →
    sheetStep f acc (done ++ rest) = sheetStep f (sheetStep f acc done) rest := by
  intro done
  induction done with
  | nil => intro rest acc _; rfl
  | cons s ds ih =>
    intro rest acc h
    obtain ⟨d, hd⟩ := h s (List.mem_cons_self s ds)
    simp only [List.cons_append, sheetStep, hd]
    exact ih rest _ (fun s' hs' => h s' (List.mem_cons_of_mem s hs'))

theorem sheetStep_ok_errors (f : UploadedFile) :
    ∀ (done : List String) (acc : Table × List String),
    (∀ s ∈ done, ∃ d, read_excel_sheet f s = Except.ok d) →
    (sheetStep f acc done).2 = acc.2 := by
  intro done
  induction done with
  | nil => intro acc _; rfl
  | cons s ds ih =>
    intro acc h
    obtain ⟨d, hd⟩ := h s (List.mem_cons_self s ds)
    simp only [sheetStep, hd]
    exact ih _ (fun s' hs' => h s' (List.mem_cons_of_mem s hs'))

theorem sheetStep_error_head (f : UploadedFile) (acc : Table × List String)
    (bad : String) (skipped : List String) (e : PdError)
    (hbad : read_excel_sheet f bad = Except.error e) :
    sheetStep f acc (bad :: skipped)
      = (acc.1, acc.2 ++ [sheetErrorText f.name e]) := by
  simp [sheetStep, hbad]

/-- C3 amended: failure isolation in `consolidate_sheets` is per file, not
per sheet: when a selected sheet of file `f` fails to load, the sheets of
`f` already processed before the failure are kept, exactly one message is
recorded, the remaining selected sheets of the same file are skipped (the
exception aborts the inner loop), and the files after `f` are still
processed from the accumulated state. -/
theorem consolidate_sheets_per_file_failure
    (pre post : List UploadedFile) (f : UploadedFile)
    (sel : List (String × List String)) (done skipped : List String)
    (bad : String) (e : PdError)
    (hsel : assocLookup sel f.name = some (done ++ bad :: skipped))
    (hdone : ∀ s ∈ done, ∃ d, read_excel_sheet f s = Except.ok d)
    (hbad : read_excel_sheet f bad = Except.error e) :
    consolidate_sheets (pre ++ f :: post) sel
      = List.foldl (fileSheetsStep sel)
          ((sheetStep f (consolidate_sheets pre sel) done).1,
           (consolidate_sheets pre sel).2 ++ [sheetErrorText f.name e])
          post := by
  unfold consolidate_sheets
  rw [List.foldl_append, List.foldl_cons]
  congr 1
  simp only [fileSheetsStep, hsel]
  rw [sheetStep_append_ok f done (bad :: skipped) _ hdone,
    sheetStep_error_head f _ bad skipped e hbad,
    sheetStep_ok_errors f done _ hdone]

/-- C3 counterexample: with selection \x7bwb.xlsx: [Bad, Good]\x7d, where Bad
fails to load, the valid selected sheet Good of the same file yields no
rows at all, although selecting Good alone yields its one row — refuting
the claim that every other selected sheet of the same file is still
loaded and accumulated. -/
theorem consolidate_sheets_not_per_sheet_isolated :
    (consolidate_sheets [wSkip] [("wb.xlsx", ["Bad", "Good"])]).1.rows.length = 0
    ∧ read_excel_sheet wSkip "Good" = Except.ok tGood
    ∧ tGood.rows.length = 1
    ∧ (consolidate_sheets [wSkip] [("wb.xlsx", ["Good"])]).1.rows.length = 1 :=
  ⟨rfl, rfl, rfl, rfl⟩

theorem consolidate_sheets_per_file_failure_witness :
    consolidate_sheets [wSkip] [("wb.xlsx", ["Good", "Bad"])]
      = ((sheetStep wSkip
            (consolidate_sheets [] [("wb.xlsx", ["Good", "Bad"])]) ["Good"]).1,
         (consolidate_sheets [] [("wb.xlsx", ["Good", "Bad"])]).2
           ++ [sheetErrorText "wb.xlsx"
                ⟨true, "Worksheet named Bad not found"⟩]) :=
  consolidate_sheets_per_file_failure [] [] wSkip
    [("wb.xlsx", ["Good", "Bad"])] ["Good"] [] "Bad"
    ⟨true, "Worksheet named Bad not found"⟩ rfl
    (fun s hs => by rw [List.mem_singleton.mp hs]; exact ⟨tGood, rfl⟩)
    rfl

theorem provenance_overwrites_existing_column_witness :
    (consolidate_files [fJunk] "csv").1.cols = tJunk.cols
    ∧ (consolidate_files [fJunk] "csv").1.col "Filename"
        = List.replicate tJunk.rows.length (some "f.csv")
    ∧ (consolidate_sheets [gJunk] [("g.xlsx", ["S"])]).1.cols = uJunk.cols
    ∧ (consolidate_sheets [gJunk] [("g.xlsx", ["S"])]).1.col "Filename"
        = List.replicate uJunk.rows.length (some "g.xlsx")
    ∧ (consolidate_sheets [gJunk] [("g.xlsx", ["S"])]).1.col "Sheet Name"
        = List.replicate uJunk.rows.length (some "S") :=
  provenance_overwrites_existing_column fJunk gJunk tJunk uJunk "S"
    rfl (by unfold Table.WF; decide) (by decide)
    rfl (by unfold Table.WF; decide) (by decide) (by decide)

/-- C4: evaluation of the selection merge at the failing input. With the
sheet S1 both manually selected and matched by the search term "s1", the
merge appends the auto match without checking membership, so the resulting
selection holds two entries for the (wb2.xlsx, S1) pair and the sheet's
single row is consolidated twice. -/
theorem merge_selections_duplicates_pair :
    sheet_mode_selection [wDup] [("wb2.xlsx", ["S1"])] "s1"
      = [("wb2.xlsx", ["S1", "S1"])]
    ∧ (consolidate_sheets [wDup]
        (sheet_mode_selection [wDup] [("wb2.xlsx", ["S1"])] "s1")).1.rows.length
        = 2 :=
  ⟨rfl, rfl⟩

/-- C5 counterexample: consolidating the spec's worked example does not
produce the column order X, Y, Z, Filename — the Filename column is added
to each file's table before concatenation, so it precedes the
later-appearing column Z. -/
theorem consolidate_files_example_cols_order_refuted :
    (consolidate_files [f1csv, f2csv] "csv").1.cols
      ≠ ["X", "Y", "Z", "Filename"] := by
  decide

/-- C5 amended: consolidating f1.csv (columns X, Y, two rows) and f2.csv
(columns X, Z, one row) in file mode yields a three-row table with
columns X, Y, Filename, Z in that order — existing columns keep their
positions and new columns append at the end — where f2.csv's Y cell is
null and f1.csv's Z cells are null, with no recorded message. -/
theorem consolidate_files_example_shape :
    consolidate_files [f1csv, f2csv] "csv"
      = (⟨["X", "Y", "Filename", "Z"],
          [[some "x1", some "y1", some "f1.csv", none],
           [some "x2", some "y2", some "f1.csv", none],
           [some "x3", none, some "f2.csv", some "z3"]]⟩, []) :=
  rfl

theorem containsSub_nil (hay : List Char) : containsSub hay [] = true := by
  cases hay <;> simp [containsSub, isPrefixChars]

/-- C6 counterexample: filtering by the empty search term does not return
the empty sequence — the empty string is a substring of every name, so
every sheet name matches. -/
theorem filterBySearch_empty_term_not_empty :
    filterBySearch ["Sales"] "" = ["Sales"]
    ∧ filterBySearch ["Sales"] "" ≠ [] :=
  ⟨rfl, by decide⟩

/-- C6 amended: an empty search term matches every sheet name, so
`filterBySearch names ""` returns all of `names`; nevertheless no sheet is
auto-selected when the term is empty, because the auto-selection step is
guarded by a non-empty-term check, so the selection handed to the
consolidator is exactly the manual mapping. -/
theorem empty_search_matches_all_but_no_autoselect :
    (∀ names : List String, filterBySearch names "" = names)
    ∧ (∀ (files : List UploadedFile) (manual : List (String × List String)),
        sheet_mode_selection files manual "" = mapped_sheets files manual) := by
  constructor
  · intro names
    unfold filterBySearch
    have h : ∀ s : String, containsSub (strLower s) (strLower "") = true := by
      intro s
      have he : strLower "" = [] := rfl
      rw [he]
      exact containsSub_nil _
    exact List.filter_eq_self.mpr (fun a _ => h a)
  · intro files manual
    unfold sheet_mode_selection auto_select
    rw [if_pos (Or.inl rfl)]

/-- C8: the export block writes exactly one sheet whose cell grid is the
header row — the column names in their current order — followed by the
data rows unchanged (no index column is prepended, since the source passes
index=False), and exporting the empty table yields a header-only grid
rather than raising. -/
theorem export_single_sheet_no_index (t : Table) :
    (excel_writer_output t).length = 1
    ∧ excel_writer_output t
        = [("Sheet1", (t.cols.map (fun c => some c)) :: t.rows)]
    ∧ excel_writer_output Table.empty = [("Sheet1", [[]])] :=
  ⟨rfl, rfl, rfl⟩

end Conso
